import Mathlib

set_option maxRecDepth 100000

/-!
Verification of the api-mapper OpenAPI client generator (src/src/parser.ts)
against its natural-language specification.

The file shallowly embeds the pure core of the program: the normalizer
(`parseOpenApiSpec` and its helpers), the identifier deriver (`pascalCase`,
`camelCase`, `generateOperationId`), the client renderer (`generateClient`,
`generateMethod` and helpers), the Type Renderer (`generateTypes`,
`generateResponseType` and helpers), and the pure parts of the Spec Locator
(`SPEC_DISCOVERY_PATHS`, `getBaseUrl`, the SpecNotFound error message).
JavaScript strings are modelled as Lean `String`s processed through explicit
`List Char` recursion so that every definition evaluates in the kernel.
Unbounded JavaScript recursion over schema trees is modelled with an explicit
fuel parameter.
-/

/-- Models JS `sub.length > 0 && hay.startsWith(sub)` at the list level:
`listHasPre sub hay` is true when `sub` is a prefix of `hay`. -/
def listHasPre : List Char → List Char → Bool
  | [], _ => true
  | _ :: _, [] => false
  | a :: as, b :: bs => a = b && listHasPre as bs

/-- Substring test on character lists: true when `sub` occurs contiguously in `hay`. -/
def listHasSub (sub : List Char) : List Char → Bool
  | [] => sub.isEmpty
  | c :: rest => listHasPre sub (c :: rest) || listHasSub sub rest

/-- Models JS `s.startsWith(t)`. -/
def strHasPre (s t : String) : Bool := listHasPre t.data s.data

/-- Models JS `s.includes(t)` (substring test). -/
def strHasSub (s t : String) : Bool := listHasSub t.data s.data

/-- Models JS `s.endsWith(t)`. -/
def strEndsWith (s t : String) : Bool := listHasPre t.data.reverse s.data.reverse

/-- Models JS `s.split("/")` (used by `getRefName` and `generateOperationId`). -/
def splitSlashAux : List Char → List Char → List String
  | [], acc => [String.mk acc.reverse]
  | c :: rest, acc =>
    if c = '/' then String.mk acc.reverse :: splitSlashAux rest []
    else splitSlashAux rest (c :: acc)

/-- Models JS `s.split("/")`. -/
def splitSlash (s : String) : List String := splitSlashAux s.data []

/-- Models JS `s.toLowerCase()` on the ASCII strings the generator handles. -/
def lowerStr (s : String) : String := String.mk (s.data.map Char.toLower)

/-- Models JS `s.toUpperCase()` on the ASCII strings the generator handles. -/
def upperStr (s : String) : String := String.mk (s.data.map Char.toUpper)

/-- Models JS `s.charAt(0).toUpperCase() + s.slice(1)`. -/
def capFirst (s : String) : String :=
  match s.data with
  | [] => ""
  | c :: rest => String.mk (Char.toUpper c :: rest)

/-- Models JS `s.charAt(0).toLowerCase() + s.slice(1)` (used by `camelCase`). -/
def lowFirst (s : String) : String :=
  match s.data with
  | [] => ""
  | c :: rest => String.mk (Char.toLower c :: rest)

/-- Models JS `"  ".repeat(n)` (indentation in `schemaToTsType`). -/
def dupStr : Nat → String → String
  | 0, _ => ""
  | n + 1, s => s ++ dupStr n s

/-- Models JS `array.join(sep)`. -/
def joinSep (sep : String) : List String → String
  | [] => ""
  | [l] => l
  | l :: ls => l ++ sep ++ joinSep sep ls

/-- Models JS `lines.join("\n")`, the final step of every renderer. -/
def joinNL (ls : List String) : String := joinSep "\n" ls

/-- Models the JS `a || b` idiom on strings: `b` when `a` is undefined or empty
(the empty string is falsy in JS). -/
def orElseStr (a : Option String) (b : String) : String :=
  match a with
  | some s => if s = "" then b else s
  | none => b

/-- Models JS `s.replace(pat, rep)` with a plain-string pattern: replaces the
first occurrence only (used by `generatePathInterpolation`). -/
def replaceFirstAux (pat rep : List Char) : List Char → List Char
  | [] => []
  | c :: rest =>
    if listHasPre pat (c :: rest) then rep ++ (c :: rest).drop pat.length
    else c :: replaceFirstAux pat rep rest

/-- Models JS `s.replace(pat, rep)` (first occurrence, plain-string pattern). -/
def replaceFirst (s pat rep : String) : String :=
  if pat.data.isEmpty then s
  else String.mk (replaceFirstAux pat.data rep.data s.data)

/-!
Data model: the IR (`Parsed*` types from src/src/parser.ts lines 6-77) and the
source-document node types the normalizer consumes.  Optional JS fields are
`Option`s; JS objects used as ordered string maps (`properties`, `content`,
`responses`, `paths`, `schemas`) are association lists, preserving
`Object.entries` insertion order.  The reference-or-value unions of the source
(`X | ReferenceObject`) are tagged variants, matching the code's `isReference`
discrimination (a `$ref` key present on a schema object is a `ref` field).
-/

/-- ParsedSchema (parser.ts lines 38-48), as a single-constructor inductive
because the structure is recursive through `properties` and `items`. -/
inductive ParsedSchema where
  | mk (type : String) (format : Option String) (description : Option String)
       (properties : Option (List (String × ParsedSchema)))
       (items : Option ParsedSchema)
       (required : Option (List String))
       (enum : Option (List String))
       (nullable : Option Bool)
       (ref : Option String)

/-- Field accessor for ParsedSchema.type. -/
def ParsedSchema.type : ParsedSchema → String
  | .mk t _ _ _ _ _ _ _ _ => t

/-- Field accessor for ParsedSchema.format. -/
def ParsedSchema.format : ParsedSchema → Option String
  | .mk _ f _ _ _ _ _ _ _ => f

/-- Field accessor for ParsedSchema.description. -/
def ParsedSchema.description : ParsedSchema → Option String
  | .mk _ _ d _ _ _ _ _ _ => d

/-- Field accessor for ParsedSchema.properties. -/
def ParsedSchema.properties : ParsedSchema → Option (List (String × ParsedSchema))
  | .mk _ _ _ p _ _ _ _ _ => p

/-- Field accessor for ParsedSchema.items. -/
def ParsedSchema.items : ParsedSchema → Option ParsedSchema
  | .mk _ _ _ _ i _ _ _ _ => i

/-- Field accessor for ParsedSchema.required. -/
def ParsedSchema.required : ParsedSchema → Option (List String)
  | .mk _ _ _ _ _ r _ _ _ => r

/-- Field accessor for ParsedSchema.enum. -/
def ParsedSchema.enum : ParsedSchema → Option (List String)
  | .mk _ _ _ _ _ _ e _ _ => e

/-- Field accessor for ParsedSchema.nullable. -/
def ParsedSchema.nullable : ParsedSchema → Option Bool
  | .mk _ _ _ _ _ _ _ n _ => n

/-- Field accessor for ParsedSchema.ref. -/
def ParsedSchema.ref : ParsedSchema → Option String
  | .mk _ _ _ _ _ _ _ _ r => r

/-- ParsedParameter (parser.ts lines 6-13).  The source field `in` is spelled
`in_` because `in` is a Lean keyword. -/
structure ParsedParameter where
  name : String
  in_ : String
  required : Bool
  description : Option String
  type : String
  format : Option String
deriving DecidableEq

/-- ParsedRequestBody (parser.ts lines 18-23). -/
structure ParsedRequestBody where
  required : Bool
  description : Option String
  contentType : String
  schema : ParsedSchema

/-- ParsedResponse (parser.ts lines 28-33). -/
structure ParsedResponse where
  statusCode : String
  description : String
  contentType : Option String := none
  schema : Option ParsedSchema := none

/-- ParsedOperation (parser.ts lines 53-64). -/
structure ParsedOperation where
  operationId : String
  method : String
  path : String
  summary : Option String
  description : Option String
  tags : List String
  parameters : List ParsedParameter
  requestBody : Option ParsedRequestBody
  responses : List ParsedResponse
  deprecated : Bool

/-- ParsedApi (parser.ts lines 69-77); `tags` entries are (name, description). -/
structure ParsedApi where
  title : String
  version : String
  description : Option String
  baseUrl : Option String
  operations : List ParsedOperation
  schemas : List (String × ParsedSchema)
  tags : List (String × Option String)

/-- Source schema node (OpenAPI SchemaObject or ReferenceObject): a `$ref` key
present makes the code's `isReference` return true, modelled by `ref` being
`some`.  Composition keywords hold child node lists. -/
inductive SchemaNode where
  | mk (type : Option String) (format : Option String) (description : Option String)
       (nullable : Option Bool)
       (enum : Option (List String))
       (items : Option SchemaNode)
       (properties : Option (List (String × SchemaNode)))
       (required : Option (List String))
       (ref : Option String)
       (allOf : Option (List SchemaNode))
       (oneOf : Option (List SchemaNode))
       (anyOf : Option (List SchemaNode))

/-- Field accessor for SchemaNode.type. -/
def SchemaNode.type : SchemaNode → Option String
  | .mk t _ _ _ _ _ _ _ _ _ _ _ => t

/-- Field accessor for SchemaNode.format. -/
def SchemaNode.format : SchemaNode → Option String
  | .mk _ f _ _ _ _ _ _ _ _ _ _ => f

/-- Field accessor for SchemaNode.description. -/
def SchemaNode.description : SchemaNode → Option String
  | .mk _ _ d _ _ _ _ _ _ _ _ _ => d

/-- Field accessor for SchemaNode.nullable. -/
def SchemaNode.nullable : SchemaNode → Option Bool
  | .mk _ _ _ n _ _ _ _ _ _ _ _ => n

/-- Field accessor for SchemaNode.enum. -/
def SchemaNode.enum : SchemaNode → Option (List String)
  | .mk _ _ _ _ e _ _ _ _ _ _ _ => e

/-- Field accessor for SchemaNode.items. -/
def SchemaNode.items : SchemaNode → Option SchemaNode
  | .mk _ _ _ _ _ i _ _ _ _ _ _ => i

/-- Field accessor for SchemaNode.properties. -/
def SchemaNode.properties : SchemaNode → Option (List (String × SchemaNode))
  | .mk _ _ _ _ _ _ p _ _ _ _ _ => p

/-- Field accessor for SchemaNode.required. -/
def SchemaNode.required : SchemaNode → Option (List String)
  | .mk _ _ _ _ _ _ _ r _ _ _ _ => r

/-- Field accessor for SchemaNode.ref (the `$ref` key; `some` means the node is
a ReferenceObject for `isReference`). -/
def SchemaNode.ref : SchemaNode → Option String
  | .mk _ _ _ _ _ _ _ _ r _ _ _ => r

/-- Field accessor for SchemaNode.allOf. -/
def SchemaNode.allOf : SchemaNode → Option (List SchemaNode)
  | .mk _ _ _ _ _ _ _ _ _ a _ _ => a

/-- Field accessor for SchemaNode.oneOf. -/
def SchemaNode.oneOf : SchemaNode → Option (List SchemaNode)
  | .mk _ _ _ _ _ _ _ _ _ _ o _ => o

/-- Field accessor for SchemaNode.anyOf. -/
def SchemaNode.anyOf : SchemaNode → Option (List SchemaNode)
  | .mk _ _ _ _ _ _ _ _ _ _ _ a => a

/-- Source parameter object (OpenAPI ParameterObject): `schema` is read only
for its `type` and `format` by `parseParameter`. -/
structure ParameterNode where
  name : String
  in_ : String
  required : Option Bool := none
  description : Option String := none
  schema : Option SchemaNode := none

/-- Parameter-or-reference union appearing in `parameters` arrays; the code's
`isReference` test maps to the `ref` constructor. -/
inductive ParamOrRef where
  | ref (r : String)
  | param (p : ParameterNode)

/-- Media-type object: only its `schema` is consumed. -/
structure MediaTypeNode where
  schema : Option SchemaNode := none

/-- Source request body object with its content map (ordered by key insertion). -/
structure RequestBodyNode where
  required : Option Bool := none
  description : Option String := none
  content : List (String × MediaTypeNode) := []

/-- Request-body-or-reference union (`isReference` maps to `ref`). -/
inductive RequestBodyOrRef where
  | ref (r : String)
  | body (b : RequestBodyNode)

/-- Source response object (description plus optional content map). -/
structure ResponseNode where
  description : Option String := none
  content : Option (List (String × MediaTypeNode)) := none

/-- Response-or-reference union (`isReference` maps to `ref`). -/
inductive ResponseOrRef where
  | ref (r : String)
  | resp (r : ResponseNode)

/-- Source operation object (the fields parseOpenApiSpec reads). -/
structure OperationNode where
  operationId : Option String := none
  summary : Option String := none
  description : Option String := none
  tags : Option (List String) := none
  parameters : Option (List ParamOrRef) := none
  requestBody : Option RequestBodyOrRef := none
  responses : Option (List (String × ResponseOrRef)) := none
  deprecated : Option Bool := none

/-- Source path item: the seven HTTP-method slots the loop probes, plus
path-level parameters. -/
structure PathItemNode where
  parameters : Option (List ParamOrRef) := none
  get : Option OperationNode := none
  post : Option OperationNode := none
  put : Option OperationNode := none
  patch : Option OperationNode := none
  delete : Option OperationNode := none
  head : Option OperationNode := none
  options : Option OperationNode := none

/-- Source document: the fields parseOpenApiSpec reads (`servers` reduced to
their `url` strings, `paths` and `components.schemas` as ordered entry lists,
`tags` as (name, description), `info` inlined). -/
structure DocumentNode where
  title : String
  version : String
  description : Option String := none
  servers : Option (List String) := none
  paths : List (String × Option PathItemNode) := []
  componentSchemas : List (String × SchemaNode) := []
  docTags : List (String × Option String) := []

/-!
Normalizer (parser.ts lines 87-353) and identifier deriver.  JS recursion over
schema trees is unbounded; `fuel` makes it structural, and theorems quantify
over sufficient fuel.  JS truthiness on optional strings (`x || d`) is
`orElseStr`; on optional booleans (`x || false`) it is `Option.getD false`.
-/

/-- Models the JS word-character class from the regex `\w` = [A-Za-z0-9_]. -/
def isWordChar (c : Char) : Bool := c.isAlpha || c.isDigit || c = '_'

/-- getRefName (parser.ts lines 97-100): last `/`-separated segment of a `$ref`. -/
def getRefName (r : String) : String := (splitSlash r).getLastD ""

/-- Models one pass of the JS global regex replace `[-_](\w)` → upper-cased
capture used by `pascalCase`: left-to-right non-overlapping matching. -/
def pascalReplaceAux : List Char → List Char
  | [] => []
  | [c] => [c]
  | c :: d :: rest =>
    if (c = '-' || c = '_') && isWordChar d then Char.toUpper d :: pascalReplaceAux rest
    else c :: pascalReplaceAux (d :: rest)

/-- pascalCase (parser.ts lines 365-369, duplicated at 696-700 and 1178-1182):
drop `-`/`_` before a word character upper-casing that character, then
upper-case the first character. -/
def pascalCase (s : String) : String := capFirst (String.mk (pascalReplaceAux s.data))

/-- camelCase (parser.ts lines 705-708): pascalCase with the first character
lower-cased. -/
def camelCase (s : String) : String := lowFirst (pascalCase s)

/-- parseSchema (parser.ts lines 105-159).  A node with a `$ref` becomes a pure
reference schema; otherwise the leaf/enum/array/object fields are assembled and
a composition keyword with a non-empty list short-circuits to the first branch
(allOf before oneOf before anyOf), discarding the assembled result. -/
def parseSchema : Nat → Option SchemaNode → ParsedSchema
  | _, none => .mk "unknown" none none none none none none none none
  | 0, some _ => .mk "unknown" none none none none none none none none
  | fuel + 1, some s =>
    match s.ref with
    | some r => .mk (getRefName r) none none none none none none none (some r)
    | none =>
      let type1 := if s.enum.isSome then "enum" else orElseStr s.type "object"
      let format1 : Option String :=
        match s.format with
        | some f => if f = "" then none else some f
        | none => none
      let items1 : Option ParsedSchema :=
        match s.type, s.items with
        | some t, some it => if t = "array" then some (parseSchema fuel (some it)) else none
        | _, _ => none
      let objLike : Bool := s.type = some "object" || s.properties.isSome
      let props1 : Option (List (String × ParsedSchema)) :=
        if objLike then
          some ((s.properties.getD []).map (fun kv => (kv.1, parseSchema fuel (some kv.2))))
        else none
      let req1 : Option (List String) := if objLike then s.required else none
      let result := ParsedSchema.mk type1 format1 s.description props1 items1 req1
        s.enum s.nullable none
      match s.allOf with
      | some (a :: _) => parseSchema fuel (some a)
      | _ =>
        match s.oneOf with
        | some (a :: _) => parseSchema fuel (some a)
        | _ =>
          match s.anyOf with
          | some (a :: _) => parseSchema fuel (some a)
          | _ => result

/-- parseParameter (parser.ts lines 164-175): the required flag is the source
flag defaulted to false; type and format are read off the parameter's schema. -/
def parseParameter (p : ParameterNode) : ParsedParameter :=
  { name := p.name
    in_ := p.in_
    required := p.required.getD false
    description := p.description
    type := orElseStr (p.schema.bind SchemaNode.type) "string"
    format := p.schema.bind SchemaNode.format }

/-- parseRequestBody (parser.ts lines 180-204): a missing or `$ref` request
body yields no parsed body; otherwise the first content key containing "json"
(or else the first key) selects the media type whose schema is parsed. -/
def parseRequestBody (fuel : Nat) : Option RequestBodyOrRef → Option ParsedRequestBody
  | none => none
  | some (.ref _) => none
  | some (.body b) =>
    let keys := b.content.map Prod.fst
    let ct? : Option String :=
      match keys.find? (fun ct => strHasSub ct "json") with
      | some ct => some ct
      | none => keys.head?
    match ct? with
    | none => none
    | some ct =>
      if ct = "" then none
      else
        match (b.content.find? (fun kv => kv.1 = ct)).map Prod.snd with
        | none => none
        | some mt =>
          some { required := b.required.getD false
                 description := b.description
                 contentType := ct
                 schema := parseSchema fuel mt.schema }

/-- parseResponses (parser.ts lines 209-246): a `$ref` response keeps only the
status code and a "Reference: …" description; otherwise content selection works
as in parseRequestBody and fills contentType and schema. -/
def parseResponses (fuel : Nat) (responses : List (String × ResponseOrRef)) :
    List ParsedResponse :=
  responses.map (fun kv =>
    match kv.2 with
    | .ref r => { statusCode := kv.1, description := "Reference: " ++ r }
    | .resp resp =>
      let base : ParsedResponse :=
        { statusCode := kv.1, description := orElseStr resp.description "" }
      match resp.content with
      | none => base
      | some content =>
        let keys := content.map Prod.fst
        let ct? : Option String :=
          match keys.find? (fun ct => strHasSub ct "json") with
          | some ct => some ct
          | none => keys.head?
        match ct? with
        | none => base
        | some ct =>
          if ct = "" then base
          else
            match (content.find? (fun kv2 => kv2.1 = ct)).map Prod.snd with
            | none => base
            | some mt =>
              { base with contentType := some ct
                          schema := some (parseSchema fuel mt.schema) })

/-- generateOperationId (parser.ts lines 251-260): keep the non-empty path
segments that do not start with `{`, lower-case the first and capitalize the
rest, then capitalize every kept segment and join after the lower-cased
method. -/
def generateOperationId (method path : String) : String :=
  let parts := ((splitSlash path).filter
      (fun p => p ≠ "" && !(strHasPre p "\x7b"))).enum.map
    (fun ip => if ip.1 = 0 then lowerStr ip.2 else capFirst ip.2)
  lowerStr method ++ joinSep "" (parts.map capFirst)

/-- The `isReference` filter of the parameter collection loops (parser.ts
lines 294-308): references are skipped, plain parameters kept. -/
def nonRefParam : ParamOrRef → Option ParameterNode
  | .ref _ => none
  | .param q => some q

/-- Loop body of parseOpenApiSpec (parser.ts lines 291-324): non-reference
parameters of the path item and then of the operation are collected in order,
and one ParsedOperation is assembled. -/
def parseOperationAt (fuel : Nat) (path : String) (pathParams : Option (List ParamOrRef))
    (method : String) (op : OperationNode) : ParsedOperation :=
  let fromPath := (pathParams.getD []).filterMap nonRefParam
  let fromOp := (op.parameters.getD []).filterMap nonRefParam
  let allParams := fromPath ++ fromOp
  { operationId := orElseStr op.operationId (generateOperationId method path)
    method := upperStr method
    path := path
    summary := op.summary
    description := op.description
    tags := op.tags.getD []
    parameters := allParams.map parseParameter
    requestBody := parseRequestBody fuel op.requestBody
    responses := parseResponses fuel (op.responses.getD [])
    deprecated := op.deprecated.getD false }

/-- The fixed HTTP-method probe order of parser.ts line 281, paired with the
corresponding slot of a path item. -/
def methodSlots (pi : PathItemNode) : List (String × Option OperationNode) :=
  [("get", pi.get), ("post", pi.post), ("put", pi.put), ("patch", pi.patch),
   ("delete", pi.delete), ("head", pi.head), ("options", pi.options)]

/-- parseOpenApiSpec (parser.ts lines 265-353): base URL from the first server,
operations from every path item slot in document order, component schemas and
tags mapped through. -/
def parseOpenApiSpec (fuel : Nat) (doc : DocumentNode) : ParsedApi :=
  let baseUrl : Option String :=
    match doc.servers with
    | some (u :: _) => some u
    | _ => none
  let operations : List ParsedOperation :=
    doc.paths.flatMap (fun pe =>
      match pe.2 with
      | none => []
      | some pi =>
        (methodSlots pi).filterMap (fun ms =>
          ms.2.map (fun op => parseOperationAt fuel pe.1 pi.parameters ms.1 op)))
  { title := doc.title
    version := doc.version
    description := doc.description
    baseUrl := baseUrl
    operations := operations
    schemas := doc.componentSchemas.map (fun kv => (kv.1, parseSchema fuel (some kv.2)))
    tags := doc.docTags }

/-!
Client renderer (parser.ts lines 691-971).  Generated TypeScript text is built
exactly as the source builds it; literal braces in generated text are written
with hex escapes.
-/

/-- Models JS truthiness of an optional string (undefined and "" are falsy). -/
def truthyS (o : Option String) : Bool :=
  match o with
  | some s => s ≠ ""
  | none => false

/-- getMethodName (parser.ts lines 731-733). -/
def getMethodName (op : ParsedOperation) : String := camelCase op.operationId

/-- getResponseType (parser.ts lines 738-740). -/
def getResponseType (op : ParsedOperation) : String :=
  pascalCase op.operationId ++ "Response"

/-- getParamsType (parser.ts lines 745-751): present only when the operation
has at least one query or path parameter. -/
def getParamsType (op : ParsedOperation) : Option String :=
  let params := op.parameters.filter (fun p => p.in_ = "query" || p.in_ = "path")
  if params.length = 0 then none else some (pascalCase op.operationId ++ "Params")

/-- getRequestType (parser.ts lines 756-759): present only when the operation
has a request body. -/
def getRequestType (op : ParsedOperation) : Option String :=
  if op.requestBody.isSome then some (pascalCase op.operationId ++ "Request") else none

/-- generatePathInterpolation (parser.ts lines 764-773): substitute each path
parameter's placeholder once. -/
def generatePathInterpolation (path : String) (pathParams : List ParsedParameter) : String :=
  pathParams.foldl (fun result param =>
    replaceFirst result ("\x7b" ++ param.name ++ "\x7d")
      ("$\x7bparams." ++ param.name ++ "\x7d")) path

/-- generateQueryBuilder (parser.ts lines 778-798): required query parameters
are set unconditionally, optional ones behind an undefined check. -/
def generateQueryBuilder (queryParams : List ParsedParameter) : List String :=
  if queryParams.length = 0 then []
  else
    ["    const queryParams = new URLSearchParams();"]
    ++ queryParams.map (fun param =>
        let condition := if param.required then "" else
          "if (params." ++ param.name ++ " !== undefined) "
        "    " ++ condition ++ "queryParams.set(\"" ++ param.name ++ "\", String(params." ++
          param.name ++ "));")
    ++ ["    const queryString = queryParams.toString() ? `?$\x7bqueryParams.toString()\x7d` : \"\";"]

/-- Signature parameter list of a generated method (parser.ts lines 814-821):
an optional `params` argument and an optional `body` argument. -/
def methodSigParams (op : ParsedOperation) : List String :=
  let l1 : List String :=
    match getParamsType op with
    | some t =>
      let allOptional := op.parameters.all (fun p => !p.required)
      ["params" ++ (if allOptional then "?" else "") ++ ": " ++ t]
    | none => []
  match getRequestType op with
  | some t => l1 ++ ["body: " ++ t]
  | none => l1

/-- generateMethod (parser.ts lines 803-885): JSDoc, signature, query builder,
fetch call, error check, and the final return statement, which tests whether
the response type name ends in "void". -/
def generateMethod (op : ParsedOperation) (baseUrlVar : String) : String :=
  let methodName := getMethodName op
  let responseType := getResponseType op
  let requestType := getRequestType op
  let pathParams := op.parameters.filter (fun p => p.in_ = "path")
  let queryParams := op.parameters.filter (fun p => p.in_ = "query")
  let params := methodSigParams op
  let jsdoc : List String :=
    if truthyS op.summary || truthyS op.description then
      ["    /**"]
      ++ (if truthyS op.summary then ["     * " ++ op.summary.getD ""] else [])
      ++ (if truthyS op.description && op.description ≠ op.summary then
            ["     * " ++ op.description.getD ""] else [])
      ++ (if op.deprecated then ["     * @deprecated"] else [])
      ++ ["     */"]
    else []
  let pathExpr :=
    if pathParams.length > 0 then "`" ++ generatePathInterpolation op.path pathParams ++ "`"
    else "\"" ++ op.path ++ "\""
  let queryLines := generateQueryBuilder queryParams
  let queryAppend := if queryParams.length > 0 then " + queryString" else ""
  let fetchOptions := ["method: \"" ++ op.method ++ "\""]
    ++ (if requestType.isSome then
          ["headers: \x7b \"Content-Type\": \"application/json\" \x7d",
           "body: JSON.stringify(body)"] else [])
  let lines :=
    jsdoc
    ++ ["    " ++ methodName ++ ": async (" ++ joinSep ", " params ++ "): Promise<" ++
          responseType ++ "> => \x7b"]
    ++ queryLines
    ++ ["      const response = await fetch(" ++ baseUrlVar ++ " + " ++ pathExpr ++
          queryAppend ++ ", \x7b",
        "        " ++ joinSep ",\n        " fetchOptions,
        "      \x7d);",
        "",
        "      if (!response.ok) \x7b",
        "        throw new Error(`HTTP $\x7bresponse.status\x7d: $\x7bresponse.statusText\x7d`);",
        "      \x7d",
        ""]
    ++ [if strEndsWith responseType "void" then "      return;" else "      return response.json();"]
    ++ ["    \x7d,"]
  joinNL lines

/-- One step of the tag-grouping fold (parser.ts lines 716-723): append to an
existing group or create a new one at the end. -/
def addToGroup (groups : List (String × List ParsedOperation)) (tag : String)
    (op : ParsedOperation) : List (String × List ParsedOperation) :=
  if groups.any (fun g => g.1 = tag) then
    groups.map (fun g => if g.1 = tag then (g.1, g.2 ++ [op]) else g)
  else groups ++ [(tag, [op])]

/-- groupByTag (parser.ts lines 713-726): group by first tag ("default" when
untagged), in first-appearance order, as a JS Map does. -/
def groupByTag (ops : List ParsedOperation) : List (String × List ParsedOperation) :=
  ops.foldl (fun groups op => addToGroup groups (orElseStr op.tags.head? "default") op) []

/-- One step of the import-set fold: JS `Set.add` keeps first insertion order
and drops duplicates. -/
def addIfAbsent (l : List String) (s : String) : List String :=
  if s ∈ l then l else l ++ [s]

/-- One operation's contribution to the import set (loop body of parser.ts
lines 902-910). -/
def typeImportsStep (acc : List String) (op : ParsedOperation) : List String :=
  let acc1 := addIfAbsent acc (pascalCase op.operationId ++ "Response")
  let acc2 := match getParamsType op with
    | some t => addIfAbsent acc1 t
    | none => acc1
  match getRequestType op with
  | some t => addIfAbsent acc2 t
  | none => acc2

/-- The type-import set of generateClient (parser.ts lines 900-910): per
operation the Response name always, the Params and Request names when present,
de-duplicated by the JS Set. -/
def typeImports (api : ParsedApi) : List String :=
  api.operations.foldl typeImportsStep []

/-- Per-tag section of the client class body (parser.ts lines 937-954),
including the trailing-blank-line pop after the last method. -/
def clientGroupLines (tag : String) (ops : List ParsedOperation) : List String :=
  let body := ops.flatMap (fun op => [generateMethod op "this.baseUrl", ""])
  let body := if body.getLast? = some "" then body.dropLast else body
  ("  " ++ camelCase tag ++ " = \x7b") :: body ++ ["  \x7d;", ""]

/-- generateClient (parser.ts lines 890-971): header, type imports, config
interface, class with tag-grouped methods, and factory function. -/
def generateClient (api : ParsedApi) (clientName : String) : String :=
  let header := ["// Auto-generated API client", "// Do not edit manually", ""]
  let imports := ["import type \x7b",
    "  " ++ joinSep ",\n  " (typeImports api),
    "\x7d from \"./types.js\";", ""]
  let config := ["export interface ClientConfig \x7b", "  baseUrl: string;",
    "  headers?: Record<string, string>;", "\x7d", ""]
  let classHead := ["export class " ++ clientName ++ " \x7b",
    "  private baseUrl: string;", "  private headers: Record<string, string>;", "",
    "  constructor(config: ClientConfig) \x7b",
    "    this.baseUrl = config.baseUrl.replace(/\\/$/, \"\");",
    "    this.headers = config.headers || \x7b\x7d;", "  \x7d", ""]
  let groups := (groupByTag api.operations).flatMap (fun g => clientGroupLines g.1 g.2)
  let factory := ["\x7d", "", "/**", " * Create a new API client instance", " */",
    "export function create" ++ clientName ++ "(config: ClientConfig): " ++ clientName ++ " \x7b",
    "  return new " ++ clientName ++ "(config);", "\x7d", ""]
  joinNL (header ++ imports ++ config ++ classHead ++ groups ++ factory)

/-!
Type Renderer (parser.ts lines 973-1228) and the pure parts of the Spec
Locator (parser.ts lines 1237-1401).
-/

/-- schemaToTsType (parser.ts lines 978-1035): reference name, enum union,
array type, inline object literal, or a primitive mapped through the final
switch.  `fuel` bounds the recursion through items and properties. -/
def schemaToTsType : Nat → ParsedSchema → Nat → String
  | 0, _, _ => "unknown"
  | fuel + 1, schema, indent =>
    let spaces := dupStr indent "  "
    if truthyS schema.ref then schema.type
    else
      match schema.enum with
      | some (v :: vs) => joinSep " | " ((v :: vs).map (fun e => "\"" ++ e ++ "\""))
      | _ =>
        match schema.type == "array", schema.items with
        | true, some it => schemaToTsType fuel it indent ++ "[]"
        | _, _ =>
          match schema.properties with
          | some (p :: ps) =>
            let propLines := (p :: ps).map (fun kv =>
              let optional := if (schema.required.getD []).contains kv.1 then "" else "?"
              let propType := schemaToTsType fuel kv.2 (indent + 1)
              let comment := if truthyS kv.2.description then
                  spaces ++ "  /** " ++ kv.2.description.getD "" ++ " */\n" else ""
              comment ++ spaces ++ "  " ++ kv.1 ++ optional ++ ": " ++ propType ++ ";")
            "\x7b\n" ++ joinSep "\n" propLines ++ "\n" ++ spaces ++ "\x7d"
          | _ =>
            if schema.type = "string" then
              if schema.format = some "date" || schema.format = some "date-time" then "string"
              else if schema.format = some "binary" then "Blob"
              else "string"
            else if schema.type = "integer" || schema.type = "number" then "number"
            else if schema.type = "boolean" then "boolean"
            else if schema.type = "object" then "Record<string, unknown>"
            else if schema.type = "null" then "null"
            else "unknown"

/-- generateInterface (parser.ts lines 1040-1076): an enum becomes a union
type alias, an object with properties an interface, anything else a type
alias; the declared name is always exactly `name`. -/
def generateInterface (fuel : Nat) (name : String) (schema : ParsedSchema) : String :=
  let descLines := if truthyS schema.description then
      ["/** " ++ schema.description.getD "" ++ " */"] else []
  match schema.enum with
  | some (v :: vs) =>
    joinNL (descLines ++ ["export type " ++ name ++ " = " ++
      joinSep " | " ((v :: vs).map (fun e => "\"" ++ e ++ "\"")) ++ ";"])
  | _ =>
    match schema.properties with
    | some (p :: ps) =>
      let fieldLines := (p :: ps).flatMap (fun kv =>
        let optional := if (schema.required.getD []).contains kv.1 then "" else "?"
        let propType := schemaToTsType fuel kv.2 1
        (if truthyS kv.2.description then
            ["  /** " ++ kv.2.description.getD "" ++ " */"] else [])
        ++ ["  " ++ kv.1 ++ optional ++ ": " ++ propType ++ ";"])
      joinNL (descLines ++ ["export interface " ++ name ++ " \x7b"] ++ fieldLines ++ ["\x7d"])
    | _ =>
      joinNL (descLines ++
        ["export type " ++ name ++ " = " ++ schemaToTsType fuel schema 0 ++ ";"])

/-- generateParamsInterface (parser.ts lines 1081-1121): null when the
operation has no query or path parameter, otherwise an interface named
`pascalCase(operationId) + "Params"`. -/
def generateParamsInterface (operation : ParsedOperation) : Option String :=
  let params := operation.parameters.filter (fun p => p.in_ = "query" || p.in_ = "path")
  match params with
  | [] => none
  | _ :: _ =>
    let interfaceName := pascalCase operation.operationId ++ "Params"
    let fieldLines := params.flatMap (fun param =>
      let optional := if param.required then "" else "?"
      let tsType :=
        if param.type = "integer" || param.type = "number" then "number"
        else if param.type = "boolean" then "boolean"
        else if param.type = "array" then "string[]"
        else "string"
      (if truthyS param.description then
          ["  /** " ++ param.description.getD "" ++ " */"] else [])
      ++ ["  " ++ param.name ++ optional ++ ": " ++ tsType ++ ";"])
    some (joinNL (["export interface " ++ interfaceName ++ " \x7b"] ++ fieldLines ++ ["\x7d"]))

/-- generateRequestBodyInterface (parser.ts lines 1126-1143): null without a
request body; a type alias for a reference schema, a full interface
otherwise — in both cases declaring `pascalCase(operationId) + "Request"`. -/
def generateRequestBodyInterface (fuel : Nat) (operation : ParsedOperation) : Option String :=
  match operation.requestBody with
  | none => none
  | some rb =>
    let interfaceName := pascalCase operation.operationId ++ "Request"
    if truthyS rb.schema.ref then
      some ("export type " ++ interfaceName ++ " = " ++ rb.schema.type ++ ";")
    else some (generateInterface fuel interfaceName rb.schema)

/-- generateResponseType (parser.ts lines 1148-1173): the first response whose
status code starts with "2" and which carries a schema becomes the response
type; without one the response type is `void`. -/
def generateResponseType (fuel : Nat) (operation : ParsedOperation) : String :=
  let typeName := pascalCase operation.operationId ++ "Response"
  match operation.responses.find? (fun r => strHasPre r.statusCode "2" && r.schema.isSome) with
  | none => "export type " ++ typeName ++ " = void;"
  | some success =>
    match success.schema with
    | none => "export type " ++ typeName ++ " = void;"
    | some schema =>
      if truthyS schema.ref then
        "export type " ++ typeName ++ " = " ++ schema.type ++ ";"
      else if schema.type == "array" &&
          (match schema.items with | some it => truthyS it.ref | none => false) then
        "export type " ++ typeName ++ " = " ++
          (match schema.items with | some it => it.type | none => "") ++ "[];"
      else
        "export type " ++ typeName ++ " = " ++ schemaToTsType fuel schema 0 ++ ";"

/-- generateTypes (parser.ts lines 1187-1228): schema section then operation
types, each declaration followed by a blank line. -/
def generateTypes (fuel : Nat) (api : ParsedApi) : String :=
  let header := ["// Auto-generated TypeScript types", "// Do not edit manually", "",
    "// ============ Schemas ============", ""]
  let schemaLines := api.schemas.flatMap (fun kv => [generateInterface fuel kv.1 kv.2, ""])
  let opHeader := ["// ============ Operation Types ============", ""]
  let opLines := api.operations.flatMap (fun operation =>
    (match generateParamsInterface operation with
     | some t => [t, ""]
     | none => [])
    ++ (match generateRequestBodyInterface fuel operation with
        | some t => [t, ""]
        | none => [])
    ++ [generateResponseType fuel operation, ""])
  joinNL (header ++ schemaLines ++ opHeader ++ opLines)

/-- Names of the type declarations generateTypes emits: every named schema
declares exactly its own name (generateInterface), then per operation the
Params interface name when generateParamsInterface is non-null, the Request
name when generateRequestBodyInterface is non-null, and always the Response
name (generateResponseType always declares `pascalCase(operationId) +
"Response"`). -/
def generateTypesDeclNames (fuel : Nat) (api : ParsedApi) : List String :=
  api.schemas.map Prod.fst
  ++ api.operations.flatMap (fun operation =>
    (match generateParamsInterface operation with
     | some _ => [pascalCase operation.operationId ++ "Params"]
     | none => [])
    ++ (match generateRequestBodyInterface fuel operation with
        | some _ => [pascalCase operation.operationId ++ "Request"]
        | none => [])
    ++ [pascalCase operation.operationId ++ "Response"])

/-- SPEC_DISCOVERY_PATHS (parser.ts lines 1237-1253): the fixed ordered probe
list of the Spec Locator. -/
def SPEC_DISCOVERY_PATHS : List String :=
  ["/openapi.json", "/openapi.yaml", "/swagger.json", "/swagger.yaml",
   "/api-docs", "/v3/api-docs", "/v2/api-docs", "/api/v3/openapi.json",
   "/api/v3/openapi.yaml", "/api/v2/swagger.json", "/docs/openapi.json",
   "/docs/swagger.json", "/api/openapi.json", "/api/swagger.json",
   "/.well-known/openapi.json"]

/-- getBaseUrl (parser.ts lines 1320-1327), modelled at the fidelity the
SpecNotFound message needs: for an absolute URL `scheme://host/rest` the URL
constructor yields `scheme://host` (protocol keeps its colon, host keeps any
port); for a string without a `//` separator the catch branch returns the
input unchanged. -/
def getBaseUrl (url : String) : String :=
  match splitSlash url with
  | proto :: "" :: host :: _ => proto ++ "//" ++ host
  | _ => url

/-- The SpecNotFound error message thrown when the direct fetch and every
discovery probe failed (parser.ts lines 1393-1400), verbatim. -/
def specNotFoundMessage (url baseUrl : String) : String :=
  "Could not find an OpenAPI specification.\n\n" ++
  "Tried:\n" ++
  "  1. Direct URL: " ++ url ++ "\n" ++
  "  2. Discovery at common paths under: " ++ baseUrl ++ "\n\n" ++
  "Please ensure the URL points to a valid OpenAPI 3.x or Swagger 2.x specification,\n" ++
  "or that the API exposes a spec at a standard location."

/-!
Reading of the composition cascade of parseSchema (parser.ts lines 147-156)
as a selector, and concrete inputs used by the claim theorems.
-/

/-- The branch the composition cascade of parseSchema selects: the head of
`allOf` when non-empty, else of `oneOf`, else of `anyOf` (parser.ts lines
147-156). -/
def firstCompositionBranch (s : SchemaNode) : Option SchemaNode :=
  match s.allOf with
  | some (a :: _) => some a
  | _ =>
    match s.oneOf with
    | some (a :: _) => some a
    | _ =>
      match s.anyOf with
      | some (a :: _) => some a
      | _ => none

/-- Source schema node with only `type` set. -/
def schemaLeaf (t : String) : SchemaNode :=
  .mk (some t) none none none none none none none none none none none

/-- Source schema node that is a bare `$ref` ReferenceObject. -/
def schemaRef (r : String) : SchemaNode :=
  .mk none none none none none none none none (some r) none none none

/-- Source schema node with only `allOf` set. -/
def schemaAllOf (l : List SchemaNode) : SchemaNode :=
  .mk none none none none none none none none none (some l) none none

/-- An operation with a single "400" response and no 2xx response carrying a
schema: the code classifies its response type as void. -/
def voidRespOp : ParsedOperation :=
  { operationId := "deletePet", method := "DELETE", path := "/pet",
    summary := none, description := none, tags := ["pet"], parameters := [],
    requestBody := none,
    responses := [{ statusCode := "400", description := "Invalid pet value" }],
    deprecated := false }

/-- A path parameter declared `required: false` in the source document. -/
def optPathParam : ParameterNode :=
  { name := "petId", in_ := "path", required := some false, description := none,
    schema := some (schemaLeaf "string") }

/-- A document whose only operation declares a path parameter with
`required: false`. -/
def optPathParamDoc : DocumentNode :=
  { title := "t", version := "1",
    paths := [("/pet/\x7bpetId\x7d",
      some { get := some { operationId := some "getPet",
                           parameters := some [ParamOrRef.param optPathParam] } })] }

/-- A path-item-level parameter named "id". -/
def dupPathLevelParam : ParameterNode :=
  { name := "id", in_ := "query", required := some true }

/-- An operation-level parameter with the same name "id". -/
def dupOpLevelParam : ParameterNode :=
  { name := "id", in_ := "query", required := some false }

/-- A document declaring the parameter "id" at both the path-item level and
the operation level. -/
def dupParamDoc : DocumentNode :=
  { title := "t", version := "1",
    paths := [("/x",
      some { parameters := some [ParamOrRef.param dupPathLevelParam],
             get := some { operationId := some "getX",
                           parameters := some [ParamOrRef.param dupOpLevelParam] } })] }

/-- A document in which two operations carry the same explicit operation id. -/
def dupIdDoc : DocumentNode :=
  { title := "t", version := "1",
    paths := [("/a", some { get := some { operationId := some "dup" } }),
              ("/b", some { get := some { operationId := some "dup" } })] }

/-- A source schema carrying both an enum and object properties (and a type). -/
def enumAndPropsNode : SchemaNode :=
  .mk (some "object") none none none (some ["a", "b"]) none
     (some [("x", schemaLeaf "string")]) none none none none none

/-- An operation node whose request body is a `$ref` ReferenceObject. -/
def refBodyOp : OperationNode :=
  { operationId := some "placeOrder",
    requestBody := some (RequestBodyOrRef.ref "#/components/requestBodies/Order") }

/-- A minimal operation with one required query parameter (used as a witness
input for the import/declaration round trip). -/
def findPetsOp : ParsedOperation :=
  { operationId := "findPets", method := "GET", path := "/pets", summary := none,
    description := none, tags := [],
    parameters := [{ name := "status", in_ := "query", required := true,
                     description := none, type := "string", format := none }],
    requestBody := none, responses := [], deprecated := false }

/-- A one-operation IR around `findPetsOp`. -/
def findPetsApi : ParsedApi :=
  { title := "t", version := "1", description := none, baseUrl := none,
    operations := [findPetsOp], schemas := [], tags := [] }

/-!
Shared helper lemmas about the string machinery and the generators.
-/

/-- A list is a prefix of itself followed by anything. -/
theorem listHasPre_self_append (a b : List Char) : listHasPre a (a ++ b) = true := by
  induction a with
  | nil => rfl
  | cons c cs ih => simp [listHasPre, ih]

/-- Substring occurrence is preserved by prepending. -/
theorem listHasSub_append_left (s t : List Char) (x : List Char)
    (h : listHasSub x t = true) : listHasSub x (s ++ t) = true := by
  induction s with
  | nil => simpa using h
  | cons c cs ih => simp [listHasSub, ih]

/-- A list occurs in itself followed by anything. -/
theorem listHasSub_self_append (x q : List Char) : listHasSub x (x ++ q) = true := by
  cases x with
  | nil => cases q <;> simp [listHasSub, listHasPre]
  | cons c cs => simp [listHasSub, listHasPre, listHasPre_self_append]

/-- A string is a JS-startsWith prefix of itself followed by anything. -/
theorem strHasPre_self (a b : String) : strHasPre (a ++ b) a = true := by
  unfold strHasPre
  rw [String.data_append]
  exact listHasPre_self_append a.data b.data

/-- Every element of a joined line list occurs in the joined string. -/
theorem strHasSub_joinSep_mem (sep : String) :
    ∀ ls : List String, ∀ x ∈ ls, strHasSub (joinSep sep ls) x = true := by
  intro ls
  induction ls with
  | nil => intro x hx; cases hx
  | cons l rest ih =>
    intro x hx
    cases rest with
    | nil =>
      have hx' : x = l := by simpa using hx
      subst hx'
      unfold strHasSub
      have h := listHasSub_self_append x.data []
      simpa using h
    | cons r rs =>
      rcases List.mem_cons.mp hx with h1 | h2
      · subst h1
        show strHasSub (x ++ sep ++ joinSep sep (r :: rs)) x = true
        unfold strHasSub
        rw [String.data_append, String.data_append, List.append_assoc]
        exact listHasSub_self_append _ _
      · show strHasSub (l ++ sep ++ joinSep sep (r :: rs)) x = true
        unfold strHasSub
        rw [String.data_append, String.data_append, List.append_assoc]
        apply listHasSub_append_left
        apply listHasSub_append_left
        have h := ih x h2
        unfold strHasSub at h
        exact h

/-!
Claim theorems.
-/

/-- C2 counterexample: normalizing a document whose only operation declares a
path parameter with `required: false` yields a ParsedOperation whose path
parameter has `required = false`, so path parameters are not forced to
required. -/
theorem c2_counterexample :
    ((parseOpenApiSpec 2 optPathParamDoc).operations.map (fun op =>
      op.parameters.map (fun p => (p.name, p.in_, p.required)))) =
      [[("petId", "path", false)]] := by decide

/-- C2 (amended): the required flag of a normalized parameter is exactly the
source document's flag defaulted to false; a path-location parameter gets no
special treatment from parseParameter. -/
theorem c2_amended (p : ParameterNode) (h : p.in_ = "path") :
    (parseParameter p).required = p.required.getD false := rfl

/-- Witness for the amended C2 at the concrete optional path parameter. -/
theorem c2_amended_witness :
    optPathParam.in_ = "path" ∧ (parseParameter optPathParam).required = false :=
  ⟨rfl, c2_amended optPathParam rfl⟩

/-- C3 counterexample: a parameter named "id" declared at both the path-item
level and the operation level survives twice in the normalized operation — no
union/shadowing by name happens. -/
theorem c3_counterexample :
    ((parseOpenApiSpec 2 dupParamDoc).operations.map (fun op =>
      op.parameters.map (fun p => (p.name, p.required)))) =
      [[("id", true), ("id", false)]] := by decide

/-- C3 (amended): the normalized parameter list is the concatenation of the
path-item-level non-reference parameters and then the operation-level
non-reference parameters, each passed through parseParameter, with no
de-duplication by name. -/
theorem c3_amended (fuel : Nat) (path : String) (pathParams : Option (List ParamOrRef))
    (method : String) (op : OperationNode) :
    (parseOperationAt fuel path pathParams method op).parameters =
      ((pathParams.getD []).filterMap nonRefParam).map parseParameter ++
      ((op.parameters.getD []).filterMap nonRefParam).map parseParameter := by
  unfold parseOperationAt
  simp [List.map_append]

/-- Upper-casing a character twice equals upper-casing it once. -/
theorem char_toUpper_idem (c : Char) : c.toUpper.toUpper = c.toUpper := by
  by_cases h : c.toNat < 123
  · have hb : ∀ n, n < 123 → (Char.ofNat n).toUpper.toUpper = (Char.ofNat n).toUpper := by
      decide
    have h2 := hb c.toNat h
    rwa [Char.ofNat_toNat] at h2
  · have h1 : ¬ (c.toNat ≥ 97 ∧ c.toNat ≤ 122) := by omega
    simp [Char.toUpper, h1]

/-- capFirst is idempotent. -/
theorem capFirst_capFirst (s : String) : capFirst (capFirst s) = capFirst s := by
  cases h : s.data with
  | nil => simp [capFirst, h]
  | cons c rest => simp [capFirst, h, char_toUpper_idem]

/-- String concatenation is associative. -/
theorem strAppend_assoc (a b c : String) : (a ++ b) ++ c = a ++ (b ++ c) := by
  apply String.ext
  simp [String.data_append, List.append_assoc]

/-- A string starting with "params" does not start with "body". -/
theorem strHasPre_params_body (x : String) : strHasPre ("params" ++ x) "body" = false := by
  unfold strHasPre
  rw [String.data_append]
  rw [show "params".data = 'p' :: 'a' :: 'r' :: 'a' :: 'm' :: 's' :: [] from rfl,
      show "body".data = 'b' :: 'o' :: 'd' :: 'y' :: [] from rfl]
  simp [listHasPre]

/-- C6 counterexample: for method GET and path "/pet-store" the synthesized id
is "getPet-store" while lower(method) ++ pascalCase(segment) — with pascalCase
as the shared identifier deriver defines it — is "getPetStore"; the two
disagree, so synthesis does not apply pascalCase to the segments. -/
theorem c6_counterexample :
    generateOperationId "GET" "/pet-store" = "getPet-store" ∧
    lowerStr "GET" ++ pascalCase "pet-store" = "getPetStore" ∧
    ("getPet-store" : String) ≠ "getPetStore" :=
  ⟨by decide, by decide, by decide⟩

/-- C6 (amended): the synthesized id is lower(method) followed by each kept
segment (non-empty, not starting with a brace) with only its first character
upper-cased — the first segment lower-cased beforehand — without any
hyphen/underscore splitting; the spec's two examples hold as stated. -/
theorem c6_amended :
    (∀ method path, generateOperationId method path =
      lowerStr method ++ joinSep ""
        (((splitSlash path).filter (fun q => q ≠ "" && !(strHasPre q "\x7b"))).enum.map
          (fun ip => if ip.1 = 0 then capFirst (lowerStr ip.2) else capFirst ip.2))) ∧
    generateOperationId "GET" "/pet/\x7bpetId\x7d/uploadImage" = "getPetUploadImage" ∧
    generateOperationId "POST" "/user/createWithList" = "postUserCreateWithList" ∧
    generateOperationId "GET" "/pet-store" = "getPet-store" := by
  refine ⟨?_, by decide, by decide, by decide⟩
  intro method path
  simp only [generateOperationId, List.map_map]
  congr 1
  apply congrArg
  apply List.map_congr_left
  intro a _
  by_cases h0 : a.1 = 0
  · simp [h0, Function.comp]
  · simp [h0, Function.comp, capFirst_capFirst]

/-- C9 counterexample: "/openapi.json" is one of the attempted probe paths,
yet the SpecNotFound message built for a failed run over
"https://example.com/spec" does not contain it — the error does not carry the
list of attempted probe paths. -/
theorem c9_counterexample :
    ("/openapi.json" ∈ SPEC_DISCOVERY_PATHS) ∧
    strHasSub (specNotFoundMessage "https://example.com/spec"
      (getBaseUrl "https://example.com/spec")) "/openapi.json" = false :=
  ⟨by decide, by decide⟩

/-- C9 (amended): the SpecNotFound message carries the original URL and the
computed origin, but no probe path of the discovery list appears in it (shown
at a concrete URL that does not itself contain any of them). -/
theorem c9_amended :
    (∀ url baseUrl, strHasSub (specNotFoundMessage url baseUrl) url = true ∧
      strHasSub (specNotFoundMessage url baseUrl) baseUrl = true) ∧
    (SPEC_DISCOVERY_PATHS.all (fun p =>
      !(strHasSub (specNotFoundMessage "https://example.com/spec"
        (getBaseUrl "https://example.com/spec")) p)) = true) := by
  refine ⟨?_, by decide⟩
  intro url baseUrl
  constructor
  · unfold strHasSub specNotFoundMessage
    simp only [String.data_append, List.append_assoc]
    apply listHasSub_append_left
    apply listHasSub_append_left
    apply listHasSub_append_left
    exact listHasSub_self_append _ _
  · unfold strHasSub specNotFoundMessage
    simp only [String.data_append, List.append_assoc]
    apply listHasSub_append_left
    apply listHasSub_append_left
    apply listHasSub_append_left
    apply listHasSub_append_left
    apply listHasSub_append_left
    apply listHasSub_append_left
    exact listHasSub_self_append _ _

/-- C10: an operation whose source request body is a `$ref` reference object,
or whose content map has no entries, normalizes to a ParsedOperation with no
request body, and the generated client method's signature takes no body
argument. -/
theorem c10_ref_body_dropped (fuel : Nat) (path : String)
    (pathParams : Option (List ParamOrRef)) (method : String) (op : OperationNode)
    (h : (∃ r, op.requestBody = some (RequestBodyOrRef.ref r)) ∨
         (∃ b, op.requestBody = some (RequestBodyOrRef.body b) ∧ b.content = [])) :
    (parseOperationAt fuel path pathParams method op).requestBody = none ∧
    ∀ s ∈ methodSigParams (parseOperationAt fuel path pathParams method op),
      strHasPre s "body" = false := by
  have hrb : parseRequestBody fuel op.requestBody = none := by
    rcases h with ⟨r, hr⟩ | ⟨b, hb, hc⟩
    · rw [hr]; rfl
    · rw [hb]; simp [parseRequestBody, hc]
  have hop : (parseOperationAt fuel path pathParams method op).requestBody = none := by
    unfold parseOperationAt
    simpa using hrb
  refine ⟨hop, ?_⟩
  intro s hs
  unfold methodSigParams at hs
  rw [show getRequestType (parseOperationAt fuel path pathParams method op) = none by
    unfold getRequestType; rw [hop]; rfl] at hs
  cases hgp : getParamsType (parseOperationAt fuel path pathParams method op) with
  | none => rw [hgp] at hs; cases hs
  | some t =>
    rw [hgp] at hs
    simp only [List.mem_singleton] at hs
    subst hs
    rw [strAppend_assoc, strAppend_assoc]
    exact strHasPre_params_body _

/-- Witness for C10 at an operation whose request body is a reference. -/
theorem c10_witness :
    (parseOperationAt 1 "/order" none "post" refBodyOp).requestBody = none :=
  (c10_ref_body_dropped 1 "/order" none "post" refBodyOp
    (Or.inl ⟨"#/components/requestBodies/Order", rfl⟩)).1

/-- Every parseSchema output either has no reference name or is exactly the
bare reference shape built by the `$ref` branch (parser.ts lines 112-114). -/
theorem parseSchema_ref_shape :
    ∀ fuel s, ((parseSchema fuel s).ref = none) ∨
      ∃ rr, parseSchema fuel s =
        ParsedSchema.mk (getRefName rr) none none none none none none none (some rr) := by
  intro fuel
  induction fuel with
  | zero =>
    intro s
    cases s with
    | none => left; rfl
    | some node => left; rfl
  | succ n ih =>
    intro s
    cases s with
    | none => left; rfl
    | some node =>
      simp only [parseSchema]
      cases hr : node.ref with
      | some r => right; exact ⟨r, rfl⟩
      | none =>
        cases hA : node.allOf with
        | some l =>
          cases l with
          | cons a rest => exact ih (some a)
          | nil =>
            cases hO : node.oneOf with
            | some l2 =>
              cases l2 with
              | cons a rest => exact ih (some a)
              | nil =>
                cases hY : node.anyOf with
                | some l3 =>
                  cases l3 with
                  | cons a rest => exact ih (some a)
                  | nil => left; rfl
                | none => left; rfl
            | none =>
              cases hY : node.anyOf with
              | some l3 =>
                cases l3 with
                | cons a rest => exact ih (some a)
                | nil => left; rfl
              | none => left; rfl
        | none =>
          cases hO : node.oneOf with
          | some l2 =>
            cases l2 with
            | cons a rest => exact ih (some a)
            | nil =>
              cases hY : node.anyOf with
              | some l3 =>
                cases l3 with
                | cons a rest => exact ih (some a)
                | nil => left; rfl
              | none => left; rfl
          | none =>
            cases hY : node.anyOf with
            | some l3 =>
              cases l3 with
              | cons a rest => exact ih (some a)
              | nil => left; rfl
            | none => left; rfl

/-- C5 counterexample: a source schema carrying both `enum` and `properties`
normalizes to a ParsedSchema with the enum values AND the object properties
populated at once, violating the exactly-one invariant. -/
theorem c5_counterexample :
    (parseSchema 2 (some enumAndPropsNode)).enum = some ["a", "b"] ∧
    (parseSchema 2 (some enumAndPropsNode)).properties.isSome = true ∧
    (parseSchema 2 (some enumAndPropsNode)).type = "enum" := by
  refine ⟨rfl, rfl, rfl⟩

/-- C5 (amended): the exclusivity that does hold: a normalized schema whose
referenceName is populated carries no enum values, no properties, no items, no
required list and no format — a ParsedSchema is never simultaneously a
reference and an inline shape; enum and properties, however, can co-occur. -/
theorem c5_amended (fuel : Nat) (s : Option SchemaNode) (r : String)
    (h : (parseSchema fuel s).ref = some r) :
    (parseSchema fuel s).enum = none ∧ (parseSchema fuel s).properties = none ∧
    (parseSchema fuel s).items = none ∧ (parseSchema fuel s).required = none := by
  rcases parseSchema_ref_shape fuel s with h0 | ⟨rr, hrr⟩
  · rw [h0] at h; cases h
  · rw [hrr]; exact ⟨rfl, rfl, rfl, rfl⟩

/-- Witness for the amended C5 at a bare reference node. -/
theorem c5_amended_witness :
    (parseSchema 1 (some (schemaRef "#/components/schemas/Pet"))).ref =
      some "#/components/schemas/Pet" ∧
    (parseSchema 1 (some (schemaRef "#/components/schemas/Pet"))).enum = none ∧
    (parseSchema 1 (some (schemaRef "#/components/schemas/Pet"))).properties = none :=
  ⟨rfl,
   (c5_amended 1 (some (schemaRef "#/components/schemas/Pet"))
     "#/components/schemas/Pet" rfl).1,
   (c5_amended 1 (some (schemaRef "#/components/schemas/Pet"))
     "#/components/schemas/Pet" rfl).2.1⟩

/-- C7: a non-reference schema node on which the composition cascade selects a
first branch normalizes to exactly the normalization of that branch (all other
fields of the node are discarded); in particular a node with
`allOf: [ref A, B]` normalizes identically to the bare reference to A. -/
theorem c7_first_branch :
    (∀ fuel (s a : SchemaNode), s.ref = none → firstCompositionBranch s = some a →
      parseSchema (fuel + 1) (some s) = parseSchema fuel (some a)) ∧
    (∀ fuel (b : SchemaNode),
      parseSchema (fuel + 2) (some (schemaAllOf [schemaRef "#/components/schemas/A", b])) =
      parseSchema (fuel + 2) (some (schemaRef "#/components/schemas/A"))) := by
  constructor
  · intro fuel s a h1 h2
    unfold firstCompositionBranch at h2
    simp only [parseSchema, h1]
    cases hA : s.allOf with
    | some l =>
      cases l with
      | cons x xs =>
        rw [hA] at h2
        simp only [Option.some.injEq] at h2
        subst h2
        rfl
      | nil =>
        rw [hA] at h2
        cases hO : s.oneOf with
        | some l2 =>
          cases l2 with
          | cons x xs =>
            rw [hO] at h2
            simp only [Option.some.injEq] at h2
            subst h2
            rfl
          | nil =>
            rw [hO] at h2
            cases hY : s.anyOf with
            | some l3 =>
              cases l3 with
              | cons x xs =>
                rw [hY] at h2
                simp only [Option.some.injEq] at h2
                subst h2
                rfl
              | nil => rw [hY] at h2; cases h2
            | none => rw [hY] at h2; cases h2
        | none =>
          rw [hO] at h2
          cases hY : s.anyOf with
          | some l3 =>
            cases l3 with
            | cons x xs =>
              rw [hY] at h2
              simp only [Option.some.injEq] at h2
              subst h2
              rfl
            | nil => rw [hY] at h2; cases h2
          | none => rw [hY] at h2; cases h2
    | none =>
      rw [hA] at h2
      cases hO : s.oneOf with
      | some l2 =>
        cases l2 with
        | cons x xs =>
          rw [hO] at h2
          simp only [Option.some.injEq] at h2
          subst h2
          rfl
        | nil =>
          rw [hO] at h2
          cases hY : s.anyOf with
          | some l3 =>
            cases l3 with
            | cons x xs =>
              rw [hY] at h2
              simp only [Option.some.injEq] at h2
              subst h2
              rfl
            | nil => rw [hY] at h2; cases h2
          | none => rw [hY] at h2; cases h2
      | none =>
        rw [hO] at h2
        cases hY : s.anyOf with
        | some l3 =>
          cases l3 with
          | cons x xs =>
            rw [hY] at h2
            simp only [Option.some.injEq] at h2
            subst h2
            rfl
          | nil => rw [hY] at h2; cases h2
        | none => rw [hY] at h2; cases h2
  · intro fuel b
    rfl

/-- Witness for C7: a node whose only composition keyword is a one-element
allOf normalizes to the normalization of that element. -/
theorem c7_witness :
    (schemaAllOf [schemaLeaf "string"]).ref = none ∧
    firstCompositionBranch (schemaAllOf [schemaLeaf "string"]) = some (schemaLeaf "string") ∧
    parseSchema 2 (some (schemaAllOf [schemaLeaf "string"])) =
      parseSchema 1 (some (schemaLeaf "string")) :=
  ⟨rfl, rfl, c7_first_branch.1 1 _ _ rfl rfl⟩

/-- The client's void test can never fire: the response type NAME always ends
in "Response", never in "void". -/
theorem responseType_not_void (op : ParsedOperation) :
    strEndsWith (getResponseType op) "void" = false := by
  unfold getResponseType strEndsWith
  rw [String.data_append, List.reverse_append]
  rw [show ("Response".data.reverse) =
    'e' :: 's' :: 'n' :: 'o' :: 'p' :: 's' :: 'e' :: 'R' :: [] from rfl]
  rw [show ("void".data.reverse) = 'd' :: 'i' :: 'o' :: 'v' :: [] from rfl]
  simp [listHasPre]

/-- C1: the Type Renderer classifies an operation with no 2xx-with-schema
response as void, but the Client Renderer never emits the bare `return;`
branch: its test inspects the response type NAME, which always ends in
"Response", so every generated method deserializes the body with
`return response.json();`.  Shown in general and at the concrete failing
operation (only a "400" response). -/
theorem c1_void_response_divergence :
    (∀ op : ParsedOperation, strEndsWith (getResponseType op) "void" = false) ∧
    (∀ (op : ParsedOperation) (b : String),
      strHasSub (generateMethod op b) "      return response.json();" = true) ∧
    generateResponseType 1 voidRespOp = "export type DeletePetResponse = void;" ∧
    strHasSub (generateMethod voidRespOp "this.baseUrl") "      return;" = false := by
  refine ⟨responseType_not_void, ?_, by decide, by decide⟩
  intro op b
  simp only [generateMethod, joinNL]
  apply strHasSub_joinSep_mem
  simp [responseType_not_void, List.mem_append]

/-- addIfAbsent preserves distinctness. -/
theorem addIfAbsent_nodup {l : List String} (h : l.Nodup) (s : String) :
    (addIfAbsent l s).Nodup := by
  unfold addIfAbsent
  split
  · exact h
  · rename_i hn
    simp [List.nodup_append, h, hn]

/-- Each step of the import fold preserves distinctness. -/
theorem typeImportsStep_nodup {acc : List String} (h : acc.Nodup) (op : ParsedOperation) :
    (typeImportsStep acc op).Nodup := by
  unfold typeImportsStep
  have h1 := addIfAbsent_nodup h (pascalCase op.operationId ++ "Response")
  cases hp : getParamsType op with
  | none =>
    cases hr : getRequestType op with
    | none => simpa using h1
    | some t => simpa using addIfAbsent_nodup h1 t
  | some t =>
    have h2 := addIfAbsent_nodup h1 t
    cases hr : getRequestType op with
    | none => simpa using h2
    | some t2 => simpa using addIfAbsent_nodup h2 t2

/-- The import list is always duplicate-free. -/
theorem typeImports_nodup (api : ParsedApi) : (typeImports api).Nodup := by
  unfold typeImports
  suffices h : ∀ (ops : List ParsedOperation) (acc : List String), acc.Nodup →
      (ops.foldl typeImportsStep acc).Nodup by
    exact h api.operations [] List.nodup_nil
  intro ops
  induction ops with
  | nil => intro acc h; simpa using h
  | cons o os ih =>
    intro acc h
    exact ih _ (typeImportsStep_nodup h o)

/-- The first line of every generated client is the fixed header comment. -/
theorem strHasPre_joinSep_head (a b : String) (l : List String) :
    strHasPre (joinSep "\n" (a :: b :: l)) a = true := by
  show strHasPre (a ++ "\n" ++ joinSep "\n" (b :: l)) a = true
  unfold strHasPre
  simp only [String.data_append, List.append_assoc]
  exact listHasPre_self_append _ _

/-- C4 counterexample: a document in which two operations share the explicit
id "dup" normalizes to two operations with identical ids, the client's import
set silently de-duplicates the shared response type name (it appears once for
two operations), and generateClient returns an ordinary artifact — generation
does not fail. -/
theorem c4_counterexample :
    ((parseOpenApiSpec 1 dupIdDoc).operations.map ParsedOperation.operationId =
      ["dup", "dup"]) ∧
    typeImports (parseOpenApiSpec 1 dupIdDoc) = ["DupResponse"] ∧
    strHasPre (generateClient (parseOpenApiSpec 1 dupIdDoc) "ApiClient")
      "// Auto-generated API client" = true :=
  ⟨by decide, by decide, by decide⟩

/-- C4 (amended): no duplicate-operation-id detection exists: generateClient
is a total function that always returns an artifact beginning with the
standard header, and its type-import list silently de-duplicates repeated
names (it is always duplicate-free), rather than surfacing an error. -/
theorem c4_amended (api : ParsedApi) (clientName : String) :
    strHasPre (generateClient api clientName) "// Auto-generated API client" = true ∧
    (typeImports api).Nodup := by
  constructor
  · simp only [generateClient, joinNL, List.cons_append]
    exact strHasPre_joinSep_head _ _ _
  · exact typeImports_nodup api

/-- Membership after addIfAbsent comes from the accumulator or is the new name. -/
theorem mem_addIfAbsent {l : List String} {s x : String}
    (h : x ∈ addIfAbsent l s) : x ∈ l ∨ x = s := by
  unfold addIfAbsent at h
  split at h
  · exact Or.inl h
  · rcases List.mem_append.mp h with h1 | h1
    · exact Or.inl h1
    · exact Or.inr (by simpa using h1)

/-- Membership after one import step: from the accumulator or one of the
operation's three candidate type names. -/
theorem mem_typeImportsStep {acc : List String} {op : ParsedOperation} {x : String}
    (h : x ∈ typeImportsStep acc op) :
    x ∈ acc ∨ x = pascalCase op.operationId ++ "Response" ∨
    getParamsType op = some x ∨ getRequestType op = some x := by
  unfold typeImportsStep at h
  cases hp : getParamsType op with
  | none =>
    cases hr : getRequestType op with
    | none =>
      simp only [hp, hr] at h
      rcases mem_addIfAbsent h with h1 | h1
      · exact Or.inl h1
      · exact Or.inr (Or.inl h1)
    | some t =>
      simp only [hp, hr] at h
      rcases mem_addIfAbsent h with h1 | h1
      · rcases mem_addIfAbsent h1 with h2 | h2
        · exact Or.inl h2
        · exact Or.inr (Or.inl h2)
      · exact Or.inr (Or.inr (Or.inr (congrArg some h1.symm)))
  | some t =>
    cases hr : getRequestType op with
    | none =>
      simp only [hp, hr] at h
      rcases mem_addIfAbsent h with h1 | h1
      · rcases mem_addIfAbsent h1 with h2 | h2
        · exact Or.inl h2
        · exact Or.inr (Or.inl h2)
      · exact Or.inr (Or.inr (Or.inl (congrArg some h1.symm)))
    | some t2 =>
      simp only [hp, hr] at h
      rcases mem_addIfAbsent h with h1 | h1
      · rcases mem_addIfAbsent h1 with h2 | h2
        · rcases mem_addIfAbsent h2 with h3 | h3
          · exact Or.inl h3
          · exact Or.inr (Or.inl h3)
        · exact Or.inr (Or.inr (Or.inl (congrArg some h2.symm)))
      · exact Or.inr (Or.inr (Or.inr (congrArg some h1.symm)))

/-- Membership in the folded import list comes from the accumulator or from
one of the operations. -/
theorem mem_typeImports_fold :
    ∀ (ops : List ParsedOperation) (acc : List String) (x : String),
      x ∈ ops.foldl typeImportsStep acc →
      x ∈ acc ∨ ∃ op ∈ ops, x = pascalCase op.operationId ++ "Response" ∨
        getParamsType op = some x ∨ getRequestType op = some x := by
  intro ops
  induction ops with
  | nil => intro acc x h; exact Or.inl h
  | cons o os ih =>
    intro acc x h
    rcases ih _ x h with h1 | ⟨op, hop, hcand⟩
    · rcases mem_typeImportsStep h1 with h2 | h2
      · exact Or.inl h2
      · exact Or.inr ⟨o, List.mem_cons_self o os, h2⟩
    · exact Or.inr ⟨op, List.mem_cons_of_mem o hop, hcand⟩

/-- The Params interface is emitted exactly when the client imports its name. -/
theorem paramsInterface_iff (op : ParsedOperation) :
    (generateParamsInterface op).isSome = (getParamsType op).isSome := by
  unfold generateParamsInterface getParamsType
  cases hp : op.parameters.filter (fun p => p.in_ = "query" || p.in_ = "path") with
  | nil => simp
  | cons a l => simp

/-- The Request interface is emitted exactly when the client imports its name. -/
theorem requestInterface_iff (fuel : Nat) (op : ParsedOperation) :
    (generateRequestBodyInterface fuel op).isSome = (getRequestType op).isSome := by
  unfold generateRequestBodyInterface getRequestType
  cases hb : op.requestBody with
  | none => rfl
  | some rb =>
    by_cases ht : truthyS rb.schema.ref = true
    · simp [ht]
    · simp [ht]

/-- A Params import name is the operation's Params type name. -/
theorem getParamsType_name {op : ParsedOperation} {x : String}
    (h : getParamsType op = some x) : x = pascalCase op.operationId ++ "Params" := by
  unfold getParamsType at h
  by_cases hl : (op.parameters.filter (fun p => p.in_ = "query" || p.in_ = "path")).length = 0
  · simp [hl] at h
  · simp [hl] at h
    exact h.symm

/-- A Request import name is the operation's Request type name. -/
theorem getRequestType_name {op : ParsedOperation} {x : String}
    (h : getRequestType op = some x) : x = pascalCase op.operationId ++ "Request" := by
  unfold getRequestType at h
  by_cases hb : op.requestBody.isSome = true
  · simp [hb] at h
    exact h.symm
  · simp [hb] at h

/-- C8: every type name in the Client Renderer's import set is the name of a
type declaration the Type Renderer emits from the same IR — no dangling
references between the two artifacts. -/
theorem c8_no_dangling (fuel : Nat) (api : ParsedApi) (name : String)
    (h : name ∈ typeImports api) : name ∈ generateTypesDeclNames fuel api := by
  unfold typeImports at h
  rcases mem_typeImports_fold api.operations [] name h with h0 | ⟨op, hop, hcand⟩
  · cases h0
  · unfold generateTypesDeclNames
    apply List.mem_append_right
    apply List.mem_flatMap.mpr
    refine ⟨op, hop, ?_⟩
    rcases hcand with h1 | h1 | h1
    · subst h1
      simp [List.mem_append]
    · have hname := getParamsType_name h1
      subst hname
      have hsome : (generateParamsInterface op).isSome = true := by
        rw [paramsInterface_iff, h1]
        rfl
      cases hgp : generateParamsInterface op with
      | none => rw [hgp] at hsome; cases hsome
      | some t => simp [hgp]
    · have hname := getRequestType_name h1
      subst hname
      have hsome : (generateRequestBodyInterface fuel op).isSome = true := by
        rw [requestInterface_iff, h1]
        rfl
      cases hgr : generateRequestBodyInterface fuel op with
      | none => rw [hgr] at hsome; cases hsome
      | some t => simp [hgr]

/-- Witness for C8: the Params name imported for `findPetsOp` is declared by
the Type Renderer. -/
theorem c8_witness :
    ("FindPetsParams" ∈ typeImports findPetsApi) ∧
    ("FindPetsParams" ∈ generateTypesDeclNames 1 findPetsApi) :=
  ⟨by decide, c8_no_dangling 1 findPetsApi "FindPetsParams" (by decide)⟩
